import Mathlib

/-!
Shallow embedding of the choicetask stimulus/response engine.

The definitions translate, function by function, the code in
src/choicetask/exptobj.py (TrialEvent and its subclasses),
src/choicetask/psychtaskclass.py (PsychTask),
src/choicetask/choicetaskclass.py (ChoiceTask), and the
trials-per-block adjustment in src/choicetask/main.py.

Time is modelled by rationals (seconds).  A run of the cooperative
polling loop is driven by a finite trace of polls, each poll being the
pygame event returned by pygame.event.poll() together with the elapsed
time (timeit.default_timer() - self.star_time) at that iteration.
-/

/-- Python int() applied to a rational: truncation toward zero
(int(2.7) = 2, int(-2.7) = -2). -/
def pyInt (q : ℚ) : Int := if 0 ≤ q then ⌊q⌋ else -⌊-q⌋

/-- Python floor division on integers (the // operator). -/
def pyFloorDiv (a b : Int) : Int := Int.fdiv a b

namespace ExptObj

/-- A pygame event as observed by one call of pygame.event.poll() inside
TrialEvent.ready_to_stop.  keydown carries the key constant (compared
against pygame.K_x, written here as the string "x"), the unicode text of
the key, and whether a shift modifier is held (pygame.key.get_mods() and
KMOD_SHIFT). -/
inductive PyEvent where
  | quitEvent
  | keydown (key : String) (uni : String) (shiftMod : Bool)
  | noEvent
deriving DecidableEq

/-- The stopinfo dictionary: an optional list of accepted response
characters under key "keypress" and an optional wall-clock time limit in
seconds under key "timelimit". -/
structure StopInfo where
  keypress : Option (List String) := none
  timelimit : Option ℚ := none
deriving DecidableEq

/-- Return value of TrialEvent.ready_to_stop, which in Python is the
union of the string "quit", the string str(ev.unicode), the float
duration, and the empty string "". -/
inductive StopRes where
  | quit
  | key (s : String)
  | timeout (d : ℚ)
  | empty
deriving DecidableEq

/-- Python truthiness of a ready_to_stop return value: non-empty strings
and non-zero floats are truthy. -/
def StopRes.truthy : StopRes → Bool
  | .quit => true
  | .key s => !(s == "")
  | .timeout d => !(decide (d = 0))
  | .empty => false

/-- The global-quit test at the top of ready_to_stop: a pygame.QUIT
event, or a KEYDOWN of pygame.K_x with a shift modifier held. -/
def isQuitSignal : PyEvent → Bool
  | .quitEvent => true
  | .keydown k _ s => k == "x" && s
  | .noEvent => false

/-- The timelimit clause of ready_to_stop: if a time limit is configured
and the elapsed duration exceeds it, the duration itself is returned. -/
def timecheck (si : StopInfo) (dur : ℚ) : StopRes :=
  match si.timelimit with
  | some tl => if tl < dur then .timeout dur else .empty
  | none => .empty

/-- TrialEvent.ready_to_stop for one polled event, given the elapsed
duration at this iteration.  Responds to the quit signals no matter
what; then, when stopinfo is a truthy dict, checks the keypress clause
before the timelimit clause; returns "" when nothing triggers. -/
def ready_to_stop (stop : Option StopInfo) (ev : PyEvent) (dur : ℚ) : StopRes :=
  if isQuitSignal ev then .quit
  else
    match stop with
    | none => .empty
    | some si =>
      match si.keypress, ev with
      | some keys, .keydown _ uni _ =>
        if keys.contains uni then .key uni else timecheck si dur
      | some _, _ => timecheck si dur
      | none, _ => timecheck si dur

/-- One iteration of the polling loop: the polled event and the elapsed
time at that iteration. -/
abbrev Poll := PyEvent × ℚ

/-- Whether a poll is a KEYDOWN whose unicode is in the accepted list. -/
def isMatchingKey (keys : List String) (p : Poll) : Bool :=
  match p.1 with
  | .keydown _ uni _ => keys.contains uni
  | _ => false

/-- The while-loop of TrialEvent.run over a finite trace of polls: stop
at the first poll whose ready_to_stop value is truthy, returning that
value together with the elapsed time (the reaction time measured at the
break).  none means the trace was exhausted with the loop still
running. -/
def runLoop (stop : Option StopInfo) : List Poll → Option (StopRes × ℚ)
  | [] => none
  | (ev, t) :: rest =>
    let r := ready_to_stop stop ev t
    if r.truthy then some (r, t) else runLoop stop rest

/-- A stopinfo with both an accepted-key list and a time limit. -/
def bothStop (keys : List String) (T : ℚ) : Option StopInfo :=
  some { keypress := some keys, timelimit := some T }

/-- Result of TrialEvent.run: the response and reaction time (each None
when absent) and whether the visual objects were set up and drawn. -/
structure RunResult where
  resp : Option StopRes
  rt : Option ℚ
  rendered : Bool
deriving DecidableEq

/-- TrialEvent.run: when self.paramsOK holds, set up the visual objects,
start the clock and run the polling loop (resp = rt = none here encodes
a trace on which the loop has not yet returned); when validation failed,
log and return (None, None) without any setup or drawing. -/
def TrialEvent.run (paramsOK : Bool) (stop : Option StopInfo) (trace : List Poll) : RunResult :=
  if paramsOK then
    match runLoop stop trace with
    | some (r, t) => ⟨some r, some t, true⟩
    | none => ⟨none, none, true⟩
  else ⟨none, none, false⟩

/-- TextTrialEvent.validate_params: fails when the surface is falsy,
when the params dict is empty, or when the key "message" is absent;
otherwise it fills in presentation defaults and returns True.  keys is
the set of keys present in the params dict. -/
def TextTrialEvent.validate_params (surfaceOk : Bool) (keys : List String) : Bool :=
  if !surfaceOk then false
  else if keys.isEmpty then false
  else if !(keys.contains "message") then false
  else true

/-- PictureTrialEvent.validate_params: fails when the surface is falsy,
when no "picfile" parameter was given, or when the given picfile is not
an existing file (os.path.isfile); otherwise it fills in defaults and
returns True.  isfile models the file system. -/
def PictureTrialEvent.validate_params (surfaceOk : Bool) (picfile : Option String)
    (isfile : String → Bool) : Bool :=
  if !surfaceOk then false
  else
    match picfile with
    | none => false
    | some f => if !(isfile f) then false else true

end ExptObj

/-- The trials-per-block adjustment in main: if v_trials % 4 is nonzero,
v_trials = v_trials + 2 (source comment: correct for trials not div
by 4). -/
def adjustTrials (n : Nat) : Nat := if n % 4 ≠ 0 then n + 2 else n

/-- The number of trial specifications actually built per block in main:
iterations = v_trials // 4 on the adjusted value, and the four-stimulus
list is repeated iterations times. -/
def sessionTrialsPerBlock (n : Nat) : Nat := 4 * (adjustTrials n / 4)

/-- Modelled from the spec: the inbound-configuration sentence says
trials-per-block is rounded up to a multiple of four if not already. -/
def specRoundedUpToFour (n : Nat) : Nat := if n % 4 = 0 then n else n + (4 - n % 4)

/-- The block reaction-time average shown by PsychTask.run_block: 0 when
block_rt is empty, else int(sum(block_rt) / len(block_rt)) with Python
true division and int() truncation. -/
def blockRTAvg (rts : List Int) : Int :=
  if rts.length = 0 then 0
  else pyInt ((rts.sum : ℚ) / (rts.length : ℚ))

/-- The block accuracy percentage shown by PsychTask.run_block: when
block_acc is truthy (non-empty), int(float(sum) / float(len) * 100),
else 0. -/
def blockAccPct (accs : List Int) : Int :=
  if accs.length = 0 then 0
  else pyInt (((accs.sum : ℚ) / (accs.length : ℚ)) * 100)

namespace Task

/-- One element of the trial list built in main: a 4-tuple of stimulus
color name, condition label, correct response key, and integer display
offset. -/
structure TrialSpec where
  colorname : String
  condition : String
  correct_resp : String
  x_offset : Int
deriving DecidableEq

/-- Result of the target CircleTrialEvent.run() as consumed by
ChoiceTask.run_trial: the quit sentinel string together with the
reaction-time float, a key-response string with the reaction-time float,
a timeout (the response slot holds the non-string duration float), or
the pair (None, None) produced when parameter validation failed. -/
inductive UnitResult where
  | quit (rtf : ℚ)
  | key (s : String) (rtf : ℚ)
  | timeout (rtf : ℚ)
  | invalid
deriving DecidableEq

/-- One row of the datalist built by ChoiceTask.run_trial, in the order
of the trial_data tuple (every field is stringified at save time). -/
structure TrialRec where
  date : String
  time : String
  id : String
  block : Nat
  trial : Nat
  stim : String
  xloc : Int
  cond : String
  cresp : String
  resp : String
  rt : Int
  acc : String
  maxtrial : Nat
  maxblock : Nat
  trialfeedback : Int
  blockfeedback : Int
  stimsize : Int
  scrnwidth : Int
  scrnheight : Int
  version : String
  tag : String
deriving DecidableEq

/-- The read-only session settings passed to the PsychTask constructor
(plus the engine version recorded in every row). -/
structure Config where
  session_id : String
  condition : String
  blocks : Nat
  trial_feedback : Bool
  block_feedback : Bool
  stim_diameter : Int
  tag : String
  version : String

/-- The mutable session state owned by PsychTask. -/
structure SessionState where
  current_block : Nat
  current_trial : Nat
  quit_now : Bool
  datalist : List TrialRec
  block_rt : List Int
  block_acc : List Int
  trial_list : List TrialSpec
deriving DecidableEq

/-- The external world of a session run: the result of the target
stimulus unit on each trial number, the per-block random shuffle
(indexed by the block counter before its increment), and the ambient
date, clock time and primary-screen size read while building a row. -/
structure Env where
  unitResult : Nat → UnitResult
  shuffle : Nat → List TrialSpec → List TrialSpec
  date : String
  time : String
  scrnwidth : Int
  scrnheight : Int

/-- Observable actions of a session run: a stimulus unit was set up and
run (fixation, masks, feedback, instructions, inter-trial interval), the
target stimulus ran for a given trial number, block feedback displayed
the given statistics, the datalist was flushed by save_data, or the
closing screen was shown. -/
inductive Action where
  | stim
  | target (n : Nat)
  | feedback (rtAvg : Int) (accPct : Int)
  | save (rows : List TrialRec)
  | closing
deriving DecidableEq

/-- The trial_data tuple appended to the datalist, translated field by
field from ChoiceTask.run_trial. -/
def mkRecord (cfg : Config) (env : Env) (st : SessionState) (t : TrialSpec)
    (xOffset : Int) (resp : String) (rt : Int) (outcome : String) : TrialRec :=
  { date := env.date
    time := env.time
    id := cfg.session_id
    block := st.current_block
    trial := st.current_trial
    stim := t.colorname
    xloc := pyFloorDiv xOffset cfg.stim_diameter
    cond := t.condition
    cresp := t.correct_resp
    resp := resp
    rt := rt
    acc := outcome
    maxtrial := st.trial_list.length
    maxblock := cfg.blocks
    trialfeedback := if cfg.trial_feedback then 1 else 0
    blockfeedback := if cfg.block_feedback then 1 else 0
    stimsize := cfg.stim_diameter
    scrnwidth := env.scrnwidth
    scrnheight := env.scrnheight
    version := cfg.version
    tag := cfg.tag }

/-- The tail of ChoiceTask.run_trial after a scored (non-quit) target
response.  resp is the raw response value: some s when it is the string
s, none when it is the non-string timeout float.  Judges accuracy,
appends the reaction time to block_rt only when Correct, appends the
0/1 accuracy to block_acc unconditionally, optionally shows trial
feedback, normalizes a non-string response to "", appends the row, and
runs the inter-trial interval. -/
def scoreTrial (cfg : Config) (env : Env) (st : SessionState) (t : TrialSpec)
    (xOffset : Int) (resp : Option String) (rt : Int) : SessionState × List Action :=
  let outcome := if resp == some t.correct_resp then "Correct" else "Incorrect"
  let st1 := if resp == some t.correct_resp then { st with block_rt := st.block_rt ++ [rt] } else st
  let st2 := { st1 with block_acc := st1.block_acc ++ [if outcome == "Correct" then 1 else 0] }
  let fb : List Action := if cfg.trial_feedback then [.stim] else []
  let respStr := match resp with | some s => s | none => ""
  let row := mkRecord cfg env st2 t xOffset respStr rt outcome
  let st3 := { st2 with datalist := st2.datalist ++ [row] }
  (st3, fb ++ [.stim])

/-- ChoiceTask.run_trial.  A falsy or wrongly sized trial_info (modelled
by none) does nothing; a spec whose condition differs from the active
condition is silently skipped; otherwise the trial counter advances, the
fixation unit runs, the target unit runs, the reaction time is converted
with int(rt * 1000.0) - raising a TypeError when the unit returned
(None, None) - the quit sentinel sets quit_now and aborts the trial
without recording, and any other response is scored and recorded. -/
def run_trial (cfg : Config) (env : Env) (st : SessionState) (ti : Option TrialSpec) :
    Except String (SessionState × List Action) :=
  match ti with
  | none => .ok (st, [])
  | some t =>
    let xOffset := t.x_offset * cfg.stim_diameter
    if t.condition == cfg.condition then
      let st0 := { st with current_trial := st.current_trial + 1 }
      let fixLog : List Action := [.stim]
      match env.unitResult st0.current_trial with
      | .invalid =>
        .error "TypeError: unsupported operand for rt of None in int(rt * 1000.0)"
      | .quit rtf =>
        let _rt := pyInt (rtf * 1000)
        .ok ({ st0 with quit_now := true }, fixLog ++ [.target st0.current_trial])
      | .key s rtf =>
        let rt := pyInt (rtf * 1000)
        if s == "quit" then
          .ok ({ st0 with quit_now := true }, fixLog ++ [.target st0.current_trial])
        else
          let p := scoreTrial cfg env st0 t xOffset (some s) rt
          .ok (p.1, fixLog ++ [.target st0.current_trial] ++ p.2)
      | .timeout rtf =>
        let rt := pyInt (rtf * 1000)
        let p := scoreTrial cfg env st0 t xOffset none rt
        .ok (p.1, fixLog ++ [.target st0.current_trial] ++ p.2)
    else .ok (st, [])

/-- The trial loop of PsychTask.run_block: before each trial the quit
flag is checked and the loop breaks if it is set. -/
def runTrials (cfg : Config) (env : Env) : SessionState → List TrialSpec →
    Except String (SessionState × List Action)
  | st, [] => .ok (st, [])
  | st, t :: ts =>
    if st.quit_now then .ok (st, [])
    else
      match run_trial cfg env st (some t) with
      | .error e => .error e
      | .ok (st1, l1) =>
        match runTrials cfg env st1 ts with
        | .error e => .error e
        | .ok (st2, l2) => .ok (st2, l1 ++ l2)

/-- PsychTask.run_block: reset the block statistics lists, return if the
quit flag is already set, shuffle the trial list, advance the block
counter, show the pre-block mask, run every trial, and when block
feedback is enabled compute and display the block statistics. -/
def run_block (cfg : Config) (env : Env) (st : SessionState) :
    Except String (SessionState × List Action) :=
  let st0 := { st with block_rt := [], block_acc := [] }
  if st0.quit_now then .ok (st0, [])
  else
    let st1 := { st0 with trial_list := env.shuffle st0.current_block st0.trial_list }
    let st2 := { st1 with current_block := st1.current_block + 1 }
    match runTrials cfg env st2 st2.trial_list with
    | .error e => .error e
    | .ok (st3, l) =>
      let fb : List Action :=
        if cfg.block_feedback then [.feedback (blockRTAvg st3.block_rt) (blockAccPct st3.block_acc)]
        else []
      .ok (st3, [.stim] ++ l ++ fb)

/-- The for-loop over range(self.blocks) in PsychTask.run_session. -/
def blocksLoop (cfg : Config) (env : Env) : SessionState → Nat →
    Except String (SessionState × List Action)
  | st, 0 => .ok (st, [])
  | st, n + 1 =>
    match run_block cfg env st with
    | .error e => .error e
    | .ok (st1, l1) =>
      match blocksLoop cfg env st1 n with
      | .error e => .error e
      | .ok (st2, l2) => .ok (st2, l1 ++ l2)

/-- PsychTask.run_session: show the instructions picture (result
ignored), run every block, flush the datalist via save_data, and show
the closing screen only when the quit flag is not set. -/
def run_session (cfg : Config) (env : Env) (st : SessionState) :
    Except String (SessionState × List Action) :=
  match blocksLoop cfg env st cfg.blocks with
  | .error e => .error e
  | .ok (st1, l) =>
    .ok (st1, [.stim] ++ l ++ [.save st1.datalist] ++ (if st1.quit_now then [] else [.closing]))

/-- The session-state initialization in the PsychTask constructor. -/
def initState (trialList : List TrialSpec) : SessionState :=
  { current_block := 0
    current_trial := 0
    quit_now := false
    datalist := []
    block_rt := []
    block_acc := []
    trial_list := trialList }

/-- A property of the success outcome (final state and action log) of a
session computation; error outcomes are out of its scope. -/
def okPairClause (e : Except String (SessionState × List Action))
    (P : SessionState × List Action → Prop) : Prop :=
  match e with
  | .ok p => P p
  | .error _ => True

/-- The data-integrity invariant on a session state: every recorded row
has a trial number at most the trial counter, and the recorded trial
numbers are strictly increasing in order of appearance. -/
def sessionInv (st : SessionState) : Prop :=
  (∀ r ∈ st.datalist, r.trial ≤ st.current_trial)
  ∧ List.Pairwise (fun a b => a < b) (st.datalist.map fun r => r.trial)

end Task

namespace ExptObj

/-- The trace contains a matching key press polled no later than the
first poll at which the elapsed time exceeds the limit: it splits as
pre ++ p :: post with p a matching key press and every poll of pre at
elapsed time at most the limit. -/
def keyBeforeDeadline (keys : List String) (T : ℚ) (trace : List Poll) : Prop :=
  ∃ pre p post, trace = pre ++ p :: post ∧ isMatchingKey keys p = true ∧ ∀ q ∈ pre, q.2 ≤ T

end ExptObj

/-- A concrete session configuration used to exercise the theorems. -/
def cfgW : Task.Config :=
  { session_id := "P1", condition := "Hard", blocks := 1, trial_feedback := true,
    block_feedback := true, stim_diameter := 10, tag := "t", version := "v" }

/-- A concrete trial specification for the active condition. -/
def specW : Task.TrialSpec :=
  { colorname := "Red", condition := "Hard", correct_resp := "u", x_offset := -2 }

/-- A concrete trial specification for the other condition. -/
def specEW : Task.TrialSpec :=
  { colorname := "Red", condition := "Easy", correct_resp := "u", x_offset := 0 }

/-- A concrete environment whose target unit always reports the key u
after half a second. -/
def envKW : Task.Env :=
  { unitResult := fun _ => .key "u" (1/2), shuffle := fun _ l => l,
    date := "d", time := "tm", scrnwidth := 640, scrnheight := 480 }

/-- A concrete environment whose target unit always reports the quit
sentinel. -/
def envQW : Task.Env := { envKW with unitResult := fun _ => .quit 1 }

/-- A concrete environment whose target unit always reports a timeout. -/
def envTW : Task.Env := { envKW with unitResult := fun _ => .timeout 6 }

/-- A concrete environment whose target unit always reports the
(None, None) pair of a failed parameter validation. -/
def envIW : Task.Env := { envKW with unitResult := fun _ => .invalid }

/-- A concrete session state in which the quit flag is already set while
the block statistics lists from an earlier block are non-empty. -/
def stQW : Task.SessionState :=
  { current_block := 2, current_trial := 5, quit_now := true, datalist := [],
    block_rt := [500], block_acc := [1, 0], trial_list := [specW] }

namespace ExptObj

lemma ready_classify (keys : List String) (T : ℚ) (ev : PyEvent) (t : ℚ)
    (hq : isQuitSignal ev = false) (hk : keys.contains "" = false) (hT : 0 ≤ T) :
    (∃ c, ready_to_stop (bothStop keys T) ev t = .key c ∧ c ∈ keys ∧ c ≠ "" ∧
        isMatchingKey keys (ev, t) = true)
    ∨ (ready_to_stop (bothStop keys T) ev t = .timeout t ∧ T < t ∧
        isMatchingKey keys (ev, t) = false)
    ∨ (ready_to_stop (bothStop keys T) ev t = .empty ∧ t ≤ T ∧
        isMatchingKey keys (ev, t) = false) := by
  have hk2 : "" ∉ keys := by simpa using hk
  cases ev with
  | quitEvent => simp [isQuitSignal] at hq
  | keydown k uni sh =>
    by_cases hm : uni ∈ keys
    · left
      refine ⟨uni, ?_, hm, ?_, ?_⟩
      · simp [ready_to_stop, hq, bothStop, hm]
      · intro h
        rw [h] at hm
        exact hk2 hm
      · simp [isMatchingKey, hm]
    · by_cases ht : T < t
      · right; left
        refine ⟨?_, ht, ?_⟩
        · simp [ready_to_stop, hq, bothStop, hm, timecheck, ht]
        · simp [isMatchingKey, hm]
      · right; right
        refine ⟨?_, le_of_not_lt ht, ?_⟩
        · simp [ready_to_stop, hq, bothStop, hm, timecheck, ht]
        · simp [isMatchingKey, hm]
  | noEvent =>
    by_cases ht : T < t
    · right; left
      exact ⟨by simp [ready_to_stop, bothStop, isQuitSignal, timecheck, ht], ht, rfl⟩
    · right; right
      exact ⟨by simp [ready_to_stop, bothStop, isQuitSignal, timecheck, ht], le_of_not_lt ht, rfl⟩

lemma runLoop_key_iff (keys : List String) (T : ℚ) (trace : List Poll)
    (hq : ∀ p ∈ trace, isQuitSignal p.1 = false)
    (hk : keys.contains "" = false) (hT : 0 ≤ T) :
    (∃ c t, runLoop (bothStop keys T) trace = some (.key c, t)) ↔
      keyBeforeDeadline keys T trace := by
  induction trace with
  | nil =>
    constructor
    · rintro ⟨c, t, h⟩
      simp [runLoop] at h
    · rintro ⟨pre, p, post, h, -, -⟩
      exact absurd h (by simp)
  | cons hd rest ih =>
    obtain ⟨ev, t⟩ := hd
    have hqh : isQuitSignal ev = false := hq (ev, t) (List.mem_cons_self _ _)
    have hqr : ∀ p ∈ rest, isQuitSignal p.1 = false := fun p hp => hq p (List.mem_cons_of_mem _ hp)
    rcases ready_classify keys T ev t hqh hk hT with
      ⟨c, hr, hc, hne, hm⟩ | ⟨hr, hTt, hm⟩ | ⟨hr, hle, hm⟩
    · have hres : runLoop (bothStop keys T) ((ev, t) :: rest) = some (.key c, t) := by
        simp [runLoop, hr, StopRes.truthy, hne]
      constructor
      · intro _
        exact ⟨[], (ev, t), rest, rfl, hm, by simp⟩
      · intro _
        exact ⟨c, t, hres⟩
    · have hne0 : t ≠ 0 := ne_of_gt (lt_of_le_of_lt hT hTt)
      have hres : runLoop (bothStop keys T) ((ev, t) :: rest) = some (.timeout t, t) := by
        simp [runLoop, hr, StopRes.truthy, hne0]
      constructor
      · rintro ⟨c, t', h⟩
        rw [hres] at h
        simp at h
      · rintro ⟨pre, p, post, heq, hmp, hpre⟩
        cases pre with
        | nil =>
          simp only [List.nil_append, List.cons.injEq] at heq
          obtain ⟨h1, -⟩ := heq
          rw [← h1] at hmp
          rw [hm] at hmp
          exact absurd hmp (by simp)
        | cons q pre' =>
          simp only [List.cons_append, List.cons.injEq] at heq
          obtain ⟨h1, -⟩ := heq
          have h2 := hpre q (List.mem_cons_self _ _)
          rw [← h1] at h2
          exact absurd hTt (not_lt.2 h2)
    · have hres : runLoop (bothStop keys T) ((ev, t) :: rest) = runLoop (bothStop keys T) rest := by
        simp [runLoop, hr, StopRes.truthy]
      rw [hres, ih hqr]
      constructor
      · rintro ⟨pre, p, post, heq, hmp, hpre⟩
        refine ⟨(ev, t) :: pre, p, post, by rw [heq, List.cons_append], hmp, ?_⟩
        intro q hqm
        rcases List.mem_cons.1 hqm with h | h
        · rw [h]; exact hle
        · exact hpre q h
      · rintro ⟨pre, p, post, heq, hmp, hpre⟩
        cases pre with
        | nil =>
          simp only [List.nil_append, List.cons.injEq] at heq
          obtain ⟨h1, -⟩ := heq
          rw [← h1] at hmp
          rw [hm] at hmp
          exact absurd hmp (by simp)
        | cons q pre' =>
          simp only [List.cons_append, List.cons.injEq] at heq
          obtain ⟨-, hrest⟩ := heq
          exact ⟨pre', p, post, hrest, hmp, fun q hqm => hpre q (List.mem_cons_of_mem _ hqm)⟩

end ExptObj

namespace ExptObj

lemma runLoop_timeout_late (keys : List String) (T : ℚ) (trace : List Poll)
    (hq : ∀ p ∈ trace, isQuitSignal p.1 = false)
    (hk : keys.contains "" = false) (hT : 0 ≤ T) :
    ∀ d t, runLoop (bothStop keys T) trace = some (.timeout d, t) → T < t ∧ d = t := by
  induction trace with
  | nil => intro d t h; simp [runLoop] at h
  | cons hd rest ih =>
    obtain ⟨ev, t0⟩ := hd
    have hqh : isQuitSignal ev = false := hq (ev, t0) (List.mem_cons_self _ _)
    have hqr : ∀ p ∈ rest, isQuitSignal p.1 = false := fun p hp => hq p (List.mem_cons_of_mem _ hp)
    intro d t h
    rcases ready_classify keys T ev t0 hqh hk hT with
      ⟨c, hr, -, hne, -⟩ | ⟨hr, hTt, -⟩ | ⟨hr, -, -⟩
    · rw [show runLoop (bothStop keys T) ((ev, t0) :: rest) = some (.key c, t0) by
        simp [runLoop, hr, StopRes.truthy, hne]] at h
      simp at h
    · have hne0 : t0 ≠ 0 := ne_of_gt (lt_of_le_of_lt hT hTt)
      rw [show runLoop (bothStop keys T) ((ev, t0) :: rest) = some (.timeout t0, t0) by
        simp [runLoop, hr, StopRes.truthy, hne0]] at h
      simp only [Option.some.injEq, Prod.mk.injEq, StopRes.timeout.injEq] at h
      obtain ⟨h1, h2⟩ := h
      constructor
      · rw [← h2]; exact hTt
      · rw [← h1]; exact h2
    · rw [show runLoop (bothStop keys T) ((ev, t0) :: rest) = runLoop (bothStop keys T) rest by
        simp [runLoop, hr, StopRes.truthy]] at h
      exact ih hqr d t h

lemma runLoop_no_quit (keys : List String) (T : ℚ) (trace : List Poll)
    (hq : ∀ p ∈ trace, isQuitSignal p.1 = false)
    (hk : keys.contains "" = false) (hT : 0 ≤ T) :
    ∀ t, runLoop (bothStop keys T) trace ≠ some (.quit, t) := by
  induction trace with
  | nil => intro t h; simp [runLoop] at h
  | cons hd rest ih =>
    obtain ⟨ev, t0⟩ := hd
    have hqh : isQuitSignal ev = false := hq (ev, t0) (List.mem_cons_self _ _)
    have hqr : ∀ p ∈ rest, isQuitSignal p.1 = false := fun p hp => hq p (List.mem_cons_of_mem _ hp)
    intro t h
    rcases ready_classify keys T ev t0 hqh hk hT with
      ⟨c, hr, -, hne, -⟩ | ⟨hr, hTt, -⟩ | ⟨hr, -, -⟩
    · rw [show runLoop (bothStop keys T) ((ev, t0) :: rest) = some (.key c, t0) by
        simp [runLoop, hr, StopRes.truthy, hne]] at h
      simp at h
    · have hne0 : t0 ≠ 0 := ne_of_gt (lt_of_le_of_lt hT hTt)
      rw [show runLoop (bothStop keys T) ((ev, t0) :: rest) = some (.timeout t0, t0) by
        simp [runLoop, hr, StopRes.truthy, hne0]] at h
      simp at h
    · rw [show runLoop (bothStop keys T) ((ev, t0) :: rest) = runLoop (bothStop keys T) rest by
        simp [runLoop, hr, StopRes.truthy]] at h
      exact ih hqr t h

lemma runLoop_total (keys : List String) (T : ℚ) (trace : List Poll)
    (hq : ∀ p ∈ trace, isQuitSignal p.1 = false)
    (hk : keys.contains "" = false) (hT : 0 ≤ T) :
    (∃ p ∈ trace, T < p.2) → ∃ r t, runLoop (bothStop keys T) trace = some (r, t) := by
  induction trace with
  | nil => rintro ⟨p, hp, -⟩; exact absurd hp (List.not_mem_nil p)
  | cons hd rest ih =>
    obtain ⟨ev, t0⟩ := hd
    have hqh : isQuitSignal ev = false := hq (ev, t0) (List.mem_cons_self _ _)
    have hqr : ∀ p ∈ rest, isQuitSignal p.1 = false := fun p hp => hq p (List.mem_cons_of_mem _ hp)
    rintro ⟨p, hp, hpt⟩
    rcases ready_classify keys T ev t0 hqh hk hT with
      ⟨c, hr, -, hne, -⟩ | ⟨hr, hTt, -⟩ | ⟨hr, hle, -⟩
    · exact ⟨.key c, t0, by simp [runLoop, hr, StopRes.truthy, hne]⟩
    · have hne0 : t0 ≠ 0 := ne_of_gt (lt_of_le_of_lt hT hTt)
      exact ⟨.timeout t0, t0, by simp [runLoop, hr, StopRes.truthy, hne0]⟩
    · rw [show runLoop (bothStop keys T) ((ev, t0) :: rest) = runLoop (bothStop keys T) rest by
        simp [runLoop, hr, StopRes.truthy]]
      rcases List.mem_cons.1 hp with h | h
      · rw [h] at hpt
        exact absurd hpt (not_lt.2 hle)
      · exact ih hqr ⟨p, h, hpt⟩

lemma runLoop_key_mem (keys : List String) (T : ℚ) (trace : List Poll)
    (hq : ∀ p ∈ trace, isQuitSignal p.1 = false)
    (hk : keys.contains "" = false) (hT : 0 ≤ T) :
    ∀ c t, runLoop (bothStop keys T) trace = some (.key c, t) → c ∈ keys ∧ c ≠ "" := by
  induction trace with
  | nil => intro c t h; simp [runLoop] at h
  | cons hd rest ih =>
    obtain ⟨ev, t0⟩ := hd
    have hqh : isQuitSignal ev = false := hq (ev, t0) (List.mem_cons_self _ _)
    have hqr : ∀ p ∈ rest, isQuitSignal p.1 = false := fun p hp => hq p (List.mem_cons_of_mem _ hp)
    intro c t h
    rcases ready_classify keys T ev t0 hqh hk hT with
      ⟨c0, hr, hcm, hne, -⟩ | ⟨hr, hTt, -⟩ | ⟨hr, -, -⟩
    · rw [show runLoop (bothStop keys T) ((ev, t0) :: rest) = some (.key c0, t0) by
        simp [runLoop, hr, StopRes.truthy, hne]] at h
      simp only [Option.some.injEq, Prod.mk.injEq, StopRes.key.injEq] at h
      obtain ⟨h1, -⟩ := h
      rw [← h1]
      exact ⟨hcm, hne⟩
    · have hne0 : t0 ≠ 0 := ne_of_gt (lt_of_le_of_lt hT hTt)
      rw [show runLoop (bothStop keys T) ((ev, t0) :: rest) = some (.timeout t0, t0) by
        simp [runLoop, hr, StopRes.truthy, hne0]] at h
      simp at h
    · rw [show runLoop (bothStop keys T) ((ev, t0) :: rest) = runLoop (bothStop keys T) rest by
        simp [runLoop, hr, StopRes.truthy]] at h
      exact ih hqr c t h

end ExptObj

open ExptObj in
/-- C1 (amended): for a Stimulus Unit with both an accepted-key set and a
time limit T (no quit signal in the trace, no empty accepted key, T
nonnegative), run() returns a non-empty accepted-key response exactly
when a matching key press is polled no later than the first poll at
which the elapsed time exceeds T; any non-key return is a timeout whose
elapsed time strictly exceeds T (so at least T), the quit sentinel is
never returned, and the loop returns once some poll passes T. -/
theorem stimulus_key_timeout_characterization :
    ∀ (keys : List String) (T : ℚ) (trace : List Poll),
      (∀ p ∈ trace, isQuitSignal p.1 = false) →
      keys.contains "" = false → 0 ≤ T →
      (((∃ c t, runLoop (bothStop keys T) trace = some (.key c, t)) ↔
          keyBeforeDeadline keys T trace)
        ∧ (∀ c t, runLoop (bothStop keys T) trace = some (.key c, t) → c ∈ keys ∧ c ≠ "")
        ∧ (∀ d t, runLoop (bothStop keys T) trace = some (.timeout d, t) → T < t ∧ d = t)
        ∧ (∀ t, runLoop (bothStop keys T) trace ≠ some (.quit, t))
        ∧ ((∃ p ∈ trace, T < p.2) → ∃ r t, runLoop (bothStop keys T) trace = some (r, t))) :=
  fun keys T trace hq hk hT =>
    ⟨runLoop_key_iff keys T trace hq hk hT,
     runLoop_key_mem keys T trace hq hk hT,
     runLoop_timeout_late keys T trace hq hk hT,
     runLoop_no_quit keys T trace hq hk hT,
     runLoop_total keys T trace hq hk hT⟩

open ExptObj in
/-- Witness for C1 at a concrete two-poll trace with the key u accepted
and a six-second limit. -/
theorem stimulus_key_timeout_characterization_witness :
    (∃ c t, runLoop (bothStop ["u"] 6)
        [(PyEvent.noEvent, 1), (PyEvent.keydown "u" "u" false, 2)] = some (.key c, t)) ↔
      keyBeforeDeadline ["u"] 6 [(PyEvent.noEvent, 1), (PyEvent.keydown "u" "u" false, 2)] :=
  (stimulus_key_timeout_characterization ["u"] 6
    [(PyEvent.noEvent, 1), (PyEvent.keydown "u" "u" false, 2)]
    (by decide) (by decide) (by norm_num)).1

open ExptObj in
/-- Counterexample to C1 as stated: with accepted key u and limit 6, a
trace whose only poll carries a matching key press at elapsed time 7
makes run() return the key response u, although no matching key press
arrived before the 6-second limit elapsed. -/
theorem stimulus_late_key_counterexample :
    runLoop (bothStop ["u"] 6) [(PyEvent.keydown "u" "u" false, 7)] = some (.key "u", 7)
    ∧ isMatchingKey ["u"] (PyEvent.keydown "u" "u" false, (7 : ℚ)) = true
    ∧ ¬((7 : ℚ) ≤ 6) :=
  ⟨by decide, by decide, by norm_num⟩

/-- C4: the block feedback statistics of a block with no scored trials
and no correct trials are exactly 0 for both the mean reaction time and
the accuracy percentage, with no division performed; a feedback-enabled
block over an empty trial list displays exactly those zeros. -/
theorem block_stats_empty_zero :
    (blockRTAvg [] = 0 ∧ blockAccPct [] = 0)
    ∧ ∀ (cfg : Task.Config) (env : Task.Env) (st : Task.SessionState),
        st.quit_now = false → cfg.block_feedback = true →
        env.shuffle st.current_block [] = [] →
        ∃ st2, Task.run_block cfg env { st with trial_list := [] } =
          .ok (st2, [.stim, .feedback 0 0]) := by
  refine ⟨⟨by decide, by decide⟩, ?_⟩
  intro cfg env st h1 h2 h3
  obtain ⟨cb, ct, qn, dl, brt, bacc, tl⟩ := st
  simp only at h1 h3
  subst h1
  refine ⟨⟨cb + 1, ct, false, dl, [], [], []⟩, ?_⟩
  simp [Task.run_block, Task.runTrials, h2, h3, blockRTAvg, blockAccPct]

/-- C5 (code bug): the configuration surface adjusts a trials-per-block
value that is not a multiple of four by adding 2, so the odd entry 5
becomes 7, which is still not a multiple of four (the spec asks for 8);
the session then builds only 4 trial specifications per block, while an
even entry such as 6 is indeed rounded up to 8. -/
theorem trials_adjustment_bug :
    adjustTrials 5 = 7 ∧ adjustTrials 5 % 4 ≠ 0 ∧ specRoundedUpToFour 5 = 8
    ∧ sessionTrialsPerBlock 5 = 4 ∧ adjustTrials 6 = 8 ∧ sessionTrialsPerBlock 6 = 8 := by
  decide

open ExptObj in
/-- C6: a Stimulus Unit whose parameter validation failed returns
exactly (None, None) from run(), with no setup or drawing of visual
objects and no exception; a Text unit without a message key and a
Picture unit with a missing or non-existing picfile all fail
validation. -/
theorem invalid_params_no_render :
    ∀ (stop : Option StopInfo) (trace : List Poll) (pok surfaceOk : Bool)
      (keys : List String) (isfile : String → Bool) (f : String),
      (pok = false → TrialEvent.run pok stop trace = ⟨none, none, false⟩)
      ∧ (keys.contains "message" = false →
          TextTrialEvent.validate_params surfaceOk keys = false)
      ∧ PictureTrialEvent.validate_params surfaceOk none isfile = false
      ∧ (isfile f = false →
          PictureTrialEvent.validate_params surfaceOk (some f) isfile = false) := by
  intro stop trace pok surfaceOk keys isfile f
  refine ⟨?_, ?_, ?_, ?_⟩
  · intro h
    rw [h]
    rfl
  · intro h
    have h2 : "message" ∉ keys := by simpa using h
    cases surfaceOk
    · rfl
    · simp [TextTrialEvent.validate_params, h2]
  · cases surfaceOk <;> rfl
  · intro h
    cases surfaceOk
    · rfl
    · simp [PictureTrialEvent.validate_params, h]

open ExptObj in
/-- Witness for C6 at concrete inputs: validation-failed run and a Text
unit missing its message. -/
theorem invalid_params_no_render_witness :
    TrialEvent.run false none [] = ⟨none, none, false⟩
    ∧ TextTrialEvent.validate_params true ["fontsize"] = false :=
  ⟨(invalid_params_no_render none [] false true ["fontsize"] (fun _ => false) "f").1 rfl,
   (invalid_params_no_render none [] false true ["fontsize"] (fun _ => false) "f").2.1 (by decide)⟩

namespace Task

lemma run_trial_skip (cfg : Config) (env : Env) (st : SessionState) (t : TrialSpec)
    (h : (t.condition == cfg.condition) = false) :
    run_trial cfg env st (some t) = .ok (st, []) := by
  simp [run_trial, h]

lemma run_trial_quit (cfg : Config) (env : Env) (st : SessionState) (t : TrialSpec) (rtf : ℚ)
    (h : (t.condition == cfg.condition) = true)
    (hr : env.unitResult (st.current_trial + 1) = .quit rtf) :
    run_trial cfg env st (some t) =
      .ok ({ st with current_trial := st.current_trial + 1, quit_now := true },
           [.stim, .target (st.current_trial + 1)]) := by
  simp [run_trial, h, hr]

lemma run_trial_sentinel (cfg : Config) (env : Env) (st : SessionState) (t : TrialSpec)
    (s : String) (rtf : ℚ)
    (h : (t.condition == cfg.condition) = true)
    (hr : env.unitResult (st.current_trial + 1) = .key s rtf)
    (hs : (s == "quit") = true) :
    run_trial cfg env st (some t) =
      .ok ({ st with current_trial := st.current_trial + 1, quit_now := true },
           [.stim, .target (st.current_trial + 1)]) := by
  simp [run_trial, h, hr, hs]

lemma run_trial_key (cfg : Config) (env : Env) (st : SessionState) (t : TrialSpec)
    (s : String) (rtf : ℚ)
    (h : (t.condition == cfg.condition) = true)
    (hr : env.unitResult (st.current_trial + 1) = .key s rtf)
    (hs : (s == "quit") = false) :
    run_trial cfg env st (some t) =
      .ok ((scoreTrial cfg env { st with current_trial := st.current_trial + 1 } t
              (t.x_offset * cfg.stim_diameter) (some s) (pyInt (rtf * 1000))).1,
           [.stim, .target (st.current_trial + 1)] ++
             (scoreTrial cfg env { st with current_trial := st.current_trial + 1 } t
               (t.x_offset * cfg.stim_diameter) (some s) (pyInt (rtf * 1000))).2) := by
  simp [run_trial, h, hr, hs]

lemma run_trial_timeout (cfg : Config) (env : Env) (st : SessionState) (t : TrialSpec)
    (rtf : ℚ)
    (h : (t.condition == cfg.condition) = true)
    (hr : env.unitResult (st.current_trial + 1) = .timeout rtf) :
    run_trial cfg env st (some t) =
      .ok ((scoreTrial cfg env { st with current_trial := st.current_trial + 1 } t
              (t.x_offset * cfg.stim_diameter) none (pyInt (rtf * 1000))).1,
           [.stim, .target (st.current_trial + 1)] ++
             (scoreTrial cfg env { st with current_trial := st.current_trial + 1 } t
               (t.x_offset * cfg.stim_diameter) none (pyInt (rtf * 1000))).2) := by
  simp [run_trial, h, hr]

lemma run_trial_invalid (cfg : Config) (env : Env) (st : SessionState) (t : TrialSpec)
    (h : (t.condition == cfg.condition) = true)
    (hr : env.unitResult (st.current_trial + 1) = .invalid) :
    run_trial cfg env st (some t) =
      .error "TypeError: unsupported operand for rt of None in int(rt * 1000.0)" := by
  simp [run_trial, h, hr]

lemma scoreTrial_counters (cfg : Config) (env : Env) (st : SessionState) (t : TrialSpec)
    (xo : Int) (resp : Option String) (rt : Int) :
    (scoreTrial cfg env st t xo resp rt).1.current_trial = st.current_trial
    ∧ (scoreTrial cfg env st t xo resp rt).1.current_block = st.current_block
    ∧ (scoreTrial cfg env st t xo resp rt).1.quit_now = st.quit_now
    ∧ (scoreTrial cfg env st t xo resp rt).1.trial_list = st.trial_list := by
  by_cases hc : (resp == some t.correct_resp) = true <;> simp [scoreTrial, hc]

lemma scoreTrial_datalist (cfg : Config) (env : Env) (st : SessionState) (t : TrialSpec)
    (xo : Int) (resp : Option String) (rt : Int) :
    ∃ row : TrialRec,
      (scoreTrial cfg env st t xo resp rt).1.datalist = st.datalist ++ [row]
      ∧ row.trial = st.current_trial
      ∧ row.xloc = pyFloorDiv xo cfg.stim_diameter := by
  by_cases hc : (resp == some t.correct_resp) = true
  · have hcc : resp = some t.correct_resp := by simpa using hc
    subst hcc
    refine ⟨mkRecord cfg env
        { st with block_rt := st.block_rt ++ [rt], block_acc := st.block_acc ++ [1] }
        t xo t.correct_resp rt "Correct", ?_, ?_, ?_⟩
    · simp [scoreTrial]
    · simp [mkRecord]
    · simp [mkRecord]
  · refine ⟨mkRecord cfg env { st with block_acc := st.block_acc ++ [0] } t xo
        (match resp with | some s => s | none => "") rt "Incorrect", ?_, ?_, ?_⟩
    · cases resp <;> simp_all [scoreTrial]
    · simp [mkRecord]
    · simp [mkRecord]

lemma scoreTrial_lists_correct (cfg : Config) (env : Env) (st : SessionState) (t : TrialSpec)
    (xo : Int) (rt : Int) :
    (scoreTrial cfg env st t xo (some t.correct_resp) rt).1.block_rt = st.block_rt ++ [rt]
    ∧ (scoreTrial cfg env st t xo (some t.correct_resp) rt).1.block_acc = st.block_acc ++ [1] := by
  simp [scoreTrial]

lemma scoreTrial_lists_incorrect (cfg : Config) (env : Env) (st : SessionState) (t : TrialSpec)
    (xo : Int) (resp : Option String) (rt : Int)
    (hc : (resp == some t.correct_resp) = false) :
    (scoreTrial cfg env st t xo resp rt).1.block_rt = st.block_rt
    ∧ (scoreTrial cfg env st t xo resp rt).1.block_acc = st.block_acc ++ [0] := by
  simp [scoreTrial, hc]

end Task

namespace Task

lemma sessionInv_extend (st st2 : SessionState) (row : TrialRec)
    (hd : st2.datalist = st.datalist ++ [row])
    (hc : st2.current_trial = st.current_trial + 1)
    (hr : row.trial = st.current_trial + 1)
    (hinv : sessionInv st) : sessionInv st2 := by
  obtain ⟨hb, hp⟩ := hinv
  constructor
  · intro r hrm
    rw [hd] at hrm
    rcases List.mem_append.1 hrm with h | h
    · have := hb r h
      omega
    · rw [List.mem_singleton.1 h, hr, hc]
  · rw [hd, List.map_append, List.pairwise_append]
    refine ⟨hp, by simp, ?_⟩
    intro a ha b hb2
    simp only [List.map_cons, List.map_nil, List.mem_cons, List.not_mem_nil, or_false] at hb2
    rw [hb2, hr]
    obtain ⟨r, hrm, hra⟩ := List.mem_map.1 ha
    have := hb r hrm
    omega

lemma sessionInv_same (st st2 : SessionState)
    (hd : st2.datalist = st.datalist)
    (hc : st.current_trial ≤ st2.current_trial)
    (hinv : sessionInv st) : sessionInv st2 := by
  obtain ⟨hb, hp⟩ := hinv
  constructor
  · intro r hrm
    rw [hd] at hrm
    have := hb r hrm
    omega
  · rw [hd]
    exact hp

lemma run_trial_inv (cfg : Config) (env : Env) (st : SessionState) (ti : Option TrialSpec)
    (st2 : SessionState) (l : List Action)
    (h : run_trial cfg env st ti = .ok (st2, l)) (hinv : sessionInv st) :
    sessionInv st2 ∧ st.current_trial ≤ st2.current_trial := by
  cases ti with
  | none =>
    simp only [run_trial, Except.ok.injEq, Prod.mk.injEq] at h
    obtain ⟨h1, -⟩ := h
    rw [← h1]
    exact ⟨hinv, le_refl _⟩
  | some t =>
    by_cases hcond : (t.condition == cfg.condition) = true
    · cases hres : env.unitResult (st.current_trial + 1) with
      | invalid =>
        rw [run_trial_invalid cfg env st t hcond hres] at h
        exact absurd h (by simp)
      | quit rtf =>
        rw [run_trial_quit cfg env st t rtf hcond hres] at h
        simp only [Except.ok.injEq, Prod.mk.injEq] at h
        obtain ⟨h1, -⟩ := h
        rw [← h1]
        exact ⟨sessionInv_same st _ rfl (by simp) hinv, by simp⟩
      | key s rtf =>
        by_cases hs : (s == "quit") = true
        · rw [run_trial_sentinel cfg env st t s rtf hcond hres hs] at h
          simp only [Except.ok.injEq, Prod.mk.injEq] at h
          obtain ⟨h1, -⟩ := h
          rw [← h1]
          exact ⟨sessionInv_same st _ rfl (by simp) hinv, by simp⟩
        · rw [run_trial_key cfg env st t s rtf hcond hres (Bool.not_eq_true _ ▸ hs)] at h
          simp only [Except.ok.injEq, Prod.mk.injEq] at h
          obtain ⟨h1, -⟩ := h
          obtain ⟨row, hdl, hrt, -⟩ :=
            scoreTrial_datalist cfg env { st with current_trial := st.current_trial + 1 } t
              (t.x_offset * cfg.stim_diameter) (some s) (pyInt (rtf * 1000))
          obtain ⟨hct, -, -, -⟩ :=
            scoreTrial_counters cfg env { st with current_trial := st.current_trial + 1 } t
              (t.x_offset * cfg.stim_diameter) (some s) (pyInt (rtf * 1000))
          rw [← h1]
          constructor
          · exact sessionInv_extend st _ row (by simpa using hdl) (by simpa using hct)
              (by simpa using hrt) hinv
          · rw [hct]
            simp
      | timeout rtf =>
        rw [run_trial_timeout cfg env st t rtf hcond hres] at h
        simp only [Except.ok.injEq, Prod.mk.injEq] at h
        obtain ⟨h1, -⟩ := h
        obtain ⟨row, hdl, hrt, -⟩ :=
          scoreTrial_datalist cfg env { st with current_trial := st.current_trial + 1 } t
            (t.x_offset * cfg.stim_diameter) none (pyInt (rtf * 1000))
        obtain ⟨hct, -, -, -⟩ :=
          scoreTrial_counters cfg env { st with current_trial := st.current_trial + 1 } t
            (t.x_offset * cfg.stim_diameter) none (pyInt (rtf * 1000))
        rw [← h1]
        constructor
        · exact sessionInv_extend st _ row (by simpa using hdl) (by simpa using hct)
            (by simpa using hrt) hinv
        · rw [hct]
          simp
    · rw [run_trial_skip cfg env st t (Bool.not_eq_true _ ▸ hcond)] at h
      simp only [Except.ok.injEq, Prod.mk.injEq] at h
      obtain ⟨h1, -⟩ := h
      rw [← h1]
      exact ⟨hinv, le_refl _⟩

end Task

namespace Task

lemma runTrials_inv (cfg : Config) (env : Env) (l : List TrialSpec) :
    ∀ (st st2 : SessionState) (lg : List Action),
      runTrials cfg env st l = .ok (st2, lg) → sessionInv st →
      sessionInv st2 ∧ st.current_trial ≤ st2.current_trial := by
  induction l with
  | nil =>
    intro st st2 lg h hinv
    simp only [runTrials, Except.ok.injEq, Prod.mk.injEq] at h
    obtain ⟨h1, -⟩ := h
    rw [← h1]
    exact ⟨hinv, le_refl _⟩
  | cons t ts ih =>
    intro st st2 lg h hinv
    by_cases hqn : st.quit_now = true
    · simp only [runTrials, hqn, if_true, Except.ok.injEq, Prod.mk.injEq] at h
      obtain ⟨h1, -⟩ := h
      rw [← h1]
      exact ⟨hinv, le_refl _⟩
    · simp only [runTrials, hqn, Bool.false_eq_true, if_false] at h
      cases h1 : run_trial cfg env st (some t) with
      | error e => rw [h1] at h; exact absurd h (by simp)
      | ok p =>
        obtain ⟨stA, lA⟩ := p
        rw [h1] at h
        dsimp only at h
        cases h2 : runTrials cfg env stA ts with
        | error e => rw [h2] at h; exact absurd h (by simp)
        | ok q =>
          obtain ⟨stB, lB⟩ := q
          rw [h2] at h
          dsimp only at h
          simp only [Except.ok.injEq, Prod.mk.injEq] at h
          obtain ⟨hB, -⟩ := h
          obtain ⟨hinvA, hleA⟩ := run_trial_inv cfg env st (some t) stA lA h1 hinv
          obtain ⟨hinvB, hleB⟩ := ih stA stB lB h2 hinvA
          rw [← hB]
          exact ⟨hinvB, le_trans hleA hleB⟩

lemma run_block_inv (cfg : Config) (env : Env) (st st2 : SessionState) (lg : List Action)
    (h : run_block cfg env st = .ok (st2, lg)) (hinv : sessionInv st) :
    sessionInv st2 ∧ st.current_trial ≤ st2.current_trial := by
  by_cases hqn : st.quit_now = true
  · simp only [run_block, hqn, if_true, Except.ok.injEq, Prod.mk.injEq] at h
    obtain ⟨h1, -⟩ := h
    rw [← h1]
    exact ⟨sessionInv_same st _ rfl (by simp) hinv, by simp⟩
  · have hqn2 : st.quit_now = false := by simpa using hqn
    obtain ⟨cb, ct, qn, dl, brt, bacc, tl⟩ := st
    simp only at hqn2
    subst hqn2
    simp only [run_block, Bool.false_eq_true, if_false] at h
    cases h2 : runTrials cfg env
        ⟨cb + 1, ct, false, dl, [], [], env.shuffle cb tl⟩ (env.shuffle cb tl) with
    | error e =>
      rw [h2] at h
      exact absurd h (by simp)
    | ok q =>
      obtain ⟨stB, lB⟩ := q
      rw [h2] at h
      dsimp only at h
      simp only [Except.ok.injEq, Prod.mk.injEq] at h
      obtain ⟨hB, -⟩ := h
      have hinvR : sessionInv ⟨cb + 1, ct, false, dl, [], [], env.shuffle cb tl⟩ :=
        sessionInv_same ⟨cb, ct, false, dl, brt, bacc, tl⟩ _ rfl (le_refl _) hinv
      obtain ⟨hinvB, hleB⟩ := runTrials_inv cfg env _ _ stB lB h2 hinvR
      rw [← hB]
      exact ⟨hinvB, hleB⟩

lemma blocksLoop_inv (cfg : Config) (env : Env) (n : Nat) :
    ∀ (st st2 : SessionState) (lg : List Action),
      blocksLoop cfg env st n = .ok (st2, lg) → sessionInv st →
      sessionInv st2 ∧ st.current_trial ≤ st2.current_trial := by
  induction n with
  | zero =>
    intro st st2 lg h hinv
    simp only [blocksLoop, Except.ok.injEq, Prod.mk.injEq] at h
    obtain ⟨h1, -⟩ := h
    rw [← h1]
    exact ⟨hinv, le_refl _⟩
  | succ n ih =>
    intro st st2 lg h hinv
    simp only [blocksLoop] at h
    cases h1 : run_block cfg env st with
    | error e => rw [h1] at h; exact absurd h (by simp)
    | ok p =>
      obtain ⟨stA, lA⟩ := p
      rw [h1] at h
      dsimp only at h
      cases h2 : blocksLoop cfg env stA n with
      | error e => rw [h2] at h; exact absurd h (by simp)
      | ok q =>
        obtain ⟨stB, lB⟩ := q
        rw [h2] at h
        dsimp only at h
        simp only [Except.ok.injEq, Prod.mk.injEq] at h
        obtain ⟨hB, -⟩ := h
        obtain ⟨hinvA, hleA⟩ := run_block_inv cfg env st stA lA h1 hinv
        obtain ⟨hinvB, hleB⟩ := ih stA stB lB h2 hinvA
        rw [← hB]
        exact ⟨hinvB, le_trans hleA hleB⟩

lemma run_session_inv (cfg : Config) (env : Env) (st st2 : SessionState) (lg : List Action)
    (h : run_session cfg env st = .ok (st2, lg)) (hinv : sessionInv st) :
    sessionInv st2 := by
  simp only [run_session] at h
  cases h1 : blocksLoop cfg env st cfg.blocks with
  | error e => rw [h1] at h; exact absurd h (by simp)
  | ok p =>
    obtain ⟨stA, lA⟩ := p
    rw [h1] at h
    simp only [Except.ok.injEq, Prod.mk.injEq] at h
    obtain ⟨hA, -⟩ := h
    rw [← hA]
    exact (blocksLoop_inv cfg env cfg.blocks st stA lA h1 hinv).1

end Task

namespace Task

lemma runTrials_quit (cfg : Config) (env : Env) (st : SessionState) (l : List TrialSpec)
    (h : st.quit_now = true) : runTrials cfg env st l = .ok (st, []) := by
  cases l <;> simp [runTrials, h]

lemma run_block_quit (cfg : Config) (env : Env) (st : SessionState)
    (h : st.quit_now = true) :
    run_block cfg env st = .ok ({ st with block_rt := [], block_acc := [] }, []) := by
  simp [run_block, h]

lemma blocksLoop_quit (cfg : Config) (env : Env) (n : Nat) :
    ∀ (st : SessionState), st.quit_now = true →
      blocksLoop cfg env st n =
        .ok ((if n = 0 then st else { st with block_rt := [], block_acc := [] }), []) := by
  induction n with
  | zero => intro st h; simp [blocksLoop]
  | succ n ih =>
    intro st h
    have h1 := run_block_quit cfg env st h
    have h2 := ih { st with block_rt := [], block_acc := [] } (by simpa using h)
    simp only [blocksLoop, h1, h2]
    cases n <;> simp

lemma run_trial_no_closing (cfg : Config) (env : Env) (st : SessionState)
    (ti : Option TrialSpec) (st2 : SessionState) (l : List Action)
    (h : run_trial cfg env st ti = .ok (st2, l)) : Action.closing ∉ l := by
  cases ti with
  | none =>
    simp only [run_trial, Except.ok.injEq, Prod.mk.injEq] at h
    obtain ⟨-, h2⟩ := h
    rw [← h2]
    simp
  | some t =>
    by_cases hcond : (t.condition == cfg.condition) = true
    · cases hres : env.unitResult (st.current_trial + 1) with
      | invalid =>
        rw [run_trial_invalid cfg env st t hcond hres] at h
        exact absurd h (by simp)
      | quit rtf =>
        rw [run_trial_quit cfg env st t rtf hcond hres] at h
        simp only [Except.ok.injEq, Prod.mk.injEq] at h
        obtain ⟨-, h2⟩ := h
        rw [← h2]
        simp
      | key s rtf =>
        by_cases hs : (s == "quit") = true
        · rw [run_trial_sentinel cfg env st t s rtf hcond hres hs] at h
          simp only [Except.ok.injEq, Prod.mk.injEq] at h
          obtain ⟨-, h2⟩ := h
          rw [← h2]
          simp
        · rw [run_trial_key cfg env st t s rtf hcond hres (Bool.not_eq_true _ ▸ hs)] at h
          simp only [Except.ok.injEq, Prod.mk.injEq] at h
          obtain ⟨-, h2⟩ := h
          rw [← h2]
          simp only [scoreTrial]
          by_cases hfb : cfg.trial_feedback = true <;>
            by_cases hc : ((some s : Option String) == some t.correct_resp) = true <;>
              simp [hfb, hc]
      | timeout rtf =>
        rw [run_trial_timeout cfg env st t rtf hcond hres] at h
        simp only [Except.ok.injEq, Prod.mk.injEq] at h
        obtain ⟨-, h2⟩ := h
        rw [← h2]
        simp only [scoreTrial]
        by_cases hfb : cfg.trial_feedback = true <;>
          simp [hfb]
    · rw [run_trial_skip cfg env st t (Bool.not_eq_true _ ▸ hcond)] at h
      simp only [Except.ok.injEq, Prod.mk.injEq] at h
      obtain ⟨-, h2⟩ := h
      rw [← h2]
      simp

lemma runTrials_no_closing (cfg : Config) (env : Env) (l : List TrialSpec) :
    ∀ (st st2 : SessionState) (lg : List Action),
      runTrials cfg env st l = .ok (st2, lg) → Action.closing ∉ lg := by
  induction l with
  | nil =>
    intro st st2 lg h
    simp only [runTrials, Except.ok.injEq, Prod.mk.injEq] at h
    obtain ⟨-, h2⟩ := h
    rw [← h2]
    simp
  | cons t ts ih =>
    intro st st2 lg h
    by_cases hqn : st.quit_now = true
    · simp only [runTrials, hqn, if_true, Except.ok.injEq, Prod.mk.injEq] at h
      obtain ⟨-, h2⟩ := h
      rw [← h2]
      simp
    · simp only [runTrials, hqn, Bool.false_eq_true, if_false] at h
      cases h1 : run_trial cfg env st (some t) with
      | error e => rw [h1] at h; exact absurd h (by simp)
      | ok p =>
        obtain ⟨stA, lA⟩ := p
        rw [h1] at h
        dsimp only at h
        cases h2 : runTrials cfg env stA ts with
        | error e => rw [h2] at h; exact absurd h (by simp)
        | ok q =>
          obtain ⟨stB, lB⟩ := q
          rw [h2] at h
          dsimp only at h
          simp only [Except.ok.injEq, Prod.mk.injEq] at h
          obtain ⟨-, h3⟩ := h
          rw [← h3]
          rw [List.mem_append]
          rintro (hm | hm)
          · exact run_trial_no_closing cfg env st (some t) stA lA h1 hm
          · exact ih stA stB lB h2 hm

lemma run_block_no_closing (cfg : Config) (env : Env) (st st2 : SessionState)
    (lg : List Action) (h : run_block cfg env st = .ok (st2, lg)) :
    Action.closing ∉ lg := by
  by_cases hqn : st.quit_now = true
  · simp only [run_block, hqn, if_true, Except.ok.injEq, Prod.mk.injEq] at h
    obtain ⟨-, h2⟩ := h
    rw [← h2]
    simp
  · have hqn2 : st.quit_now = false := by simpa using hqn
    obtain ⟨cb, ct, qn, dl, brt, bacc, tl⟩ := st
    simp only at hqn2
    subst hqn2
    simp only [run_block, Bool.false_eq_true, if_false] at h
    cases h2 : runTrials cfg env
        ⟨cb + 1, ct, false, dl, [], [], env.shuffle cb tl⟩ (env.shuffle cb tl) with
    | error e =>
      rw [h2] at h
      exact absurd h (by simp)
    | ok q =>
      obtain ⟨stB, lB⟩ := q
      rw [h2] at h
      dsimp only at h
      simp only [Except.ok.injEq, Prod.mk.injEq] at h
      obtain ⟨-, h3⟩ := h
      rw [← h3]
      have hB := runTrials_no_closing cfg env _ _ stB lB h2
      by_cases hfb : cfg.block_feedback = true <;> simp [hfb, hB]

lemma blocksLoop_no_closing (cfg : Config) (env : Env) (n : Nat) :
    ∀ (st st2 : SessionState) (lg : List Action),
      blocksLoop cfg env st n = .ok (st2, lg) → Action.closing ∉ lg := by
  induction n with
  | zero =>
    intro st st2 lg h
    simp only [blocksLoop, Except.ok.injEq, Prod.mk.injEq] at h
    obtain ⟨-, h2⟩ := h
    rw [← h2]
    simp
  | succ n ih =>
    intro st st2 lg h
    simp only [blocksLoop] at h
    cases h1 : run_block cfg env st with
    | error e => rw [h1] at h; exact absurd h (by simp)
    | ok p =>
      obtain ⟨stA, lA⟩ := p
      rw [h1] at h
      dsimp only at h
      cases h2 : blocksLoop cfg env stA n with
      | error e => rw [h2] at h; exact absurd h (by simp)
      | ok q =>
        obtain ⟨stB, lB⟩ := q
        rw [h2] at h
        dsimp only at h
        simp only [Except.ok.injEq, Prod.mk.injEq] at h
        obtain ⟨-, h3⟩ := h
        rw [← h3]
        rw [List.mem_append]
        rintro (hm | hm)
        · exact run_block_no_closing cfg env st stA lA h1 hm
        · exact ih stA stB lB h2 hm

end Task

/-- C2: the trial counter is owned by the session: a spec for another
condition is silently skipped with no state change, an accepted spec
with a well-formed unit result advances the counter by exactly one, and
over a whole session the recorded trial numbers are strictly increasing
with no reset at block boundaries. -/
theorem trial_counter_discipline :
    ∀ (cfg : Task.Config) (env : Task.Env) (st : Task.SessionState) (t : Task.TrialSpec)
      (tl : List Task.TrialSpec),
      (t.condition ≠ cfg.condition → Task.run_trial cfg env st (some t) = .ok (st, []))
      ∧ (t.condition = cfg.condition → env.unitResult (st.current_trial + 1) ≠ .invalid →
          ∃ st2 l, Task.run_trial cfg env st (some t) = .ok (st2, l)
            ∧ st2.current_trial = st.current_trial + 1)
      ∧ Task.okPairClause (Task.run_session cfg env (Task.initState tl)) (fun p =>
          List.Pairwise (fun a b => a < b) (p.1.datalist.map fun r => r.trial)) := by
  intro cfg env st t tl
  refine ⟨?_, ?_, ?_⟩
  · intro h
    exact Task.run_trial_skip cfg env st t (by simp [h])
  · intro h hni
    have hcond : (t.condition == cfg.condition) = true := by simp [h]
    cases hres : env.unitResult (st.current_trial + 1) with
    | invalid => exact absurd hres hni
    | quit rtf =>
      exact ⟨_, _, Task.run_trial_quit cfg env st t rtf hcond hres, rfl⟩
    | key s rtf =>
      by_cases hs : (s == "quit") = true
      · exact ⟨_, _, Task.run_trial_sentinel cfg env st t s rtf hcond hres hs, rfl⟩
      · refine ⟨_, _, Task.run_trial_key cfg env st t s rtf hcond hres
          (Bool.not_eq_true _ ▸ hs), ?_⟩
        have := (Task.scoreTrial_counters cfg env
          { st with current_trial := st.current_trial + 1 } t
          (t.x_offset * cfg.stim_diameter) (some s) (pyInt (rtf * 1000))).1
        simpa using this
    | timeout rtf =>
      refine ⟨_, _, Task.run_trial_timeout cfg env st t rtf hcond hres, ?_⟩
      have := (Task.scoreTrial_counters cfg env
        { st with current_trial := st.current_trial + 1 } t
        (t.x_offset * cfg.stim_diameter) none (pyInt (rtf * 1000))).1
      simpa using this
  · cases h : Task.run_session cfg env (Task.initState tl) with
    | error e => simp [Task.okPairClause, h]
    | ok p =>
      have hinv0 : Task.sessionInv (Task.initState tl) := by
        constructor <;> simp [Task.initState]
      have := Task.run_session_inv cfg env (Task.initState tl) p.1 p.2
        (by rw [h]) hinv0
      simp only [Task.okPairClause, h]
      exact this.2

/-- Witness for C2: a spec of the other condition is skipped without
state change, and a concrete one-trial session has strictly increasing
recorded trial numbers. -/
theorem trial_counter_discipline_witness :
    Task.run_trial cfgW envKW (Task.initState [specW]) (some specEW) =
      .ok (Task.initState [specW], [])
    ∧ Task.okPairClause (Task.run_session cfgW envKW (Task.initState [specW])) (fun p =>
        List.Pairwise (fun a b => a < b) (p.1.datalist.map fun r => r.trial)) :=
  ⟨(trial_counter_discipline cfgW envKW (Task.initState [specW]) specEW [specW]).1 (by decide),
   (trial_counter_discipline cfgW envKW (Task.initState [specW]) specEW [specW]).2.2⟩

/-- C3: run_block resets the block statistics lists at its start, so its
outcome is independent of whatever the previous block left in them; and
within a block a scored trial appends the reaction time to block_rt only
when judged Correct while block_acc always receives the 0/1 entry. -/
theorem block_lists_discipline :
    ∀ (cfg : Task.Config) (env : Task.Env) (st : Task.SessionState)
      (rts accs : List Int) (t : Task.TrialSpec) (s : String) (rtf : ℚ),
      Task.run_block cfg env { st with block_rt := rts, block_acc := accs } =
        Task.run_block cfg env st
      ∧ (t.condition = cfg.condition → env.unitResult (st.current_trial + 1) = .key s rtf →
          (s == "quit") = false →
          ∃ st2 l, Task.run_trial cfg env st (some t) = .ok (st2, l)
            ∧ (s = t.correct_resp →
                st2.block_rt = st.block_rt ++ [pyInt (rtf * 1000)]
                ∧ st2.block_acc = st.block_acc ++ [1])
            ∧ (s ≠ t.correct_resp →
                st2.block_rt = st.block_rt ∧ st2.block_acc = st.block_acc ++ [0]))
      ∧ (t.condition = cfg.condition → env.unitResult (st.current_trial + 1) = .timeout rtf →
          ∃ st2 l, Task.run_trial cfg env st (some t) = .ok (st2, l)
            ∧ st2.block_rt = st.block_rt ∧ st2.block_acc = st.block_acc ++ [0]) := by
  intro cfg env st rts accs t s rtf
  refine ⟨rfl, ?_, ?_⟩
  · intro h hres hs
    have hcond : (t.condition == cfg.condition) = true := by simp [h]
    refine ⟨_, _, Task.run_trial_key cfg env st t s rtf hcond hres hs, ?_, ?_⟩
    · intro hcor
      subst hcor
      have := Task.scoreTrial_lists_correct cfg env
        { st with current_trial := st.current_trial + 1 } t
        (t.x_offset * cfg.stim_diameter) (pyInt (rtf * 1000))
      simpa using this
    · intro hne
      have hc : ((some s : Option String) == some t.correct_resp) = false := by
        simp [hne]
      have := Task.scoreTrial_lists_incorrect cfg env
        { st with current_trial := st.current_trial + 1 } t
        (t.x_offset * cfg.stim_diameter) (some s) (pyInt (rtf * 1000)) hc
      simpa using this
  · intro h hres
    have hcond : (t.condition == cfg.condition) = true := by simp [h]
    refine ⟨_, _, Task.run_trial_timeout cfg env st t rtf hcond hres, ?_⟩
    have hc : ((none : Option String) == some t.correct_resp) = false := rfl
    have := Task.scoreTrial_lists_incorrect cfg env
      { st with current_trial := st.current_trial + 1 } t
      (t.x_offset * cfg.stim_diameter) none (pyInt (rtf * 1000)) hc
    simpa using this

/-- Witness for C3 at a concrete correct key press: the reaction time
joins block_rt and a 1 joins block_acc. -/
theorem block_lists_discipline_witness :
    ∃ st2 l, Task.run_trial cfgW envKW (Task.initState [specW]) (some specW) = .ok (st2, l)
      ∧ ("u" = specW.correct_resp →
          st2.block_rt = (Task.initState [specW]).block_rt ++ [pyInt ((1/2 : ℚ) * 1000)]
          ∧ st2.block_acc = (Task.initState [specW]).block_acc ++ [1])
      ∧ ("u" ≠ specW.correct_resp →
          st2.block_rt = (Task.initState [specW]).block_rt
          ∧ st2.block_acc = (Task.initState [specW]).block_acc ++ [0]) :=
  (block_lists_discipline cfgW envKW (Task.initState [specW]) [7] [0] specW "u" (1/2)).2.1
    rfl rfl rfl

/-- C7 (code bug): when the target Stimulus Unit of an accepted trial
fails parameter validation and so returns (None, None), run_trial does
not continue: the conversion int(rt * 1000.0) is applied to rt = None
and a TypeError propagates out of run_trial. -/
theorem validation_failure_raises :
    ∀ (cfg : Task.Config) (env : Task.Env) (st : Task.SessionState) (t : Task.TrialSpec),
      t.condition = cfg.condition →
      env.unitResult (st.current_trial + 1) = .invalid →
      Task.run_trial cfg env st (some t) =
        .error "TypeError: unsupported operand for rt of None in int(rt * 1000.0)" :=
  fun cfg env st t h hr => Task.run_trial_invalid cfg env st t (by simp [h]) hr

/-- Witness for C7 at a concrete accepted trial whose unit reports a
validation failure. -/
theorem validation_failure_raises_witness :
    Task.run_trial cfgW envIW (Task.initState [specW]) (some specW) =
      .error "TypeError: unsupported operand for rt of None in int(rt * 1000.0)" :=
  validation_failure_raises cfgW envIW (Task.initState [specW]) specW rfl rfl

/-- C8: a quit sentinel from the target unit ends the trial with no
record appended and the quit flag set; from a quit state the trial loop
runs nothing and the block loop only resets the statistics lists; and
every successful session flushes exactly its final datalist via
save_data while the closing screen is skipped whenever the quit flag is
set at the end. -/
theorem quit_propagation :
    ∀ (cfg : Task.Config) (env : Task.Env) (st : Task.SessionState) (t : Task.TrialSpec)
      (rtf : ℚ) (l : List Task.TrialSpec) (n : Nat) (tl : List Task.TrialSpec),
      (t.condition = cfg.condition → env.unitResult (st.current_trial + 1) = .quit rtf →
        Task.run_trial cfg env st (some t) =
          .ok ({ st with current_trial := st.current_trial + 1, quit_now := true },
               [.stim, .target (st.current_trial + 1)]))
      ∧ (st.quit_now = true → Task.runTrials cfg env st l = .ok (st, []))
      ∧ (st.quit_now = true → Task.blocksLoop cfg env st n =
          .ok ((if n = 0 then st else { st with block_rt := [], block_acc := [] }), []))
      ∧ Task.okPairClause (Task.run_session cfg env (Task.initState tl)) (fun p =>
          Task.Action.save p.1.datalist ∈ p.2
          ∧ (p.1.quit_now = true → Task.Action.closing ∉ p.2)) := by
  intro cfg env st t rtf l n tl
  refine ⟨?_, ?_, ?_, ?_⟩
  · intro h hres
    exact Task.run_trial_quit cfg env st t rtf (by simp [h]) hres
  · exact Task.runTrials_quit cfg env st l
  · exact Task.blocksLoop_quit cfg env n st
  · cases hb : Task.blocksLoop cfg env (Task.initState tl) cfg.blocks with
    | error e => simp [Task.run_session, Task.okPairClause, hb]
    | ok p =>
      obtain ⟨stA, lA⟩ := p
      have hnc := Task.blocksLoop_no_closing cfg env cfg.blocks (Task.initState tl) stA lA hb
      simp only [Task.run_session, hb, Task.okPairClause]
      constructor
      · simp
      · intro hq
        simp [hq, hnc]

/-- Witness for C8: a concrete quit result aborts the trial without a
record, and a concrete quit-state trial loop runs nothing. -/
theorem quit_propagation_witness :
    Task.run_trial cfgW envQW (Task.initState [specW]) (some specW) =
      .ok ({ Task.initState [specW] with current_trial := 1, quit_now := true },
           [.stim, .target 1])
    ∧ Task.runTrials cfgW envQW stQW [specW] = .ok (stQW, []) :=
  ⟨(quit_propagation cfgW envQW (Task.initState [specW]) specW 1 [] 0 []).1 rfl rfl,
   (quit_propagation cfgW envQW stQW specW 1 [specW] 0 []).2.1 rfl⟩

/-- Counterexample to C9 as stated: a run_block call on an already
aborted session is not a pure no-op, because the block statistics lists
are reset before the quit flag is checked; at this concrete aborted
state with a non-empty block_rt the state does change. -/
theorem aborted_block_counterexample :
    Task.run_block cfgW envKW stQW =
      .ok ({ stQW with block_rt := [], block_acc := [] }, [])
    ∧ ¬({ stQW with block_rt := [], block_acc := [] } = stQW) :=
  ⟨rfl, by decide⟩

/-- C9 (amended): a run_block call while the session is already aborted
runs no trials and shows no stimuli, and leaves the block counter, the
trial counter, the trial-list order and the datalist unchanged; the only
state change is that the block reaction-time and accuracy lists are
reset to empty. -/
theorem aborted_block_resets_lists_only :
    ∀ (cfg : Task.Config) (env : Task.Env) (st : Task.SessionState),
      st.quit_now = true →
      Task.run_block cfg env st = .ok ({ st with block_rt := [], block_acc := [] }, []) :=
  fun cfg env st h => Task.run_block_quit cfg env st h

/-- Witness for C9 at the concrete aborted state. -/
theorem aborted_block_resets_lists_only_witness :
    Task.run_block cfgW envKW stQW =
      .ok ({ stQW with block_rt := [], block_acc := [] }, []) :=
  aborted_block_resets_lists_only cfgW envKW stQW rfl

/-- C10: multiplying the specification offset by the stimulus diameter
for display and floor-dividing the displayed offset by the diameter for
recording is a round-trip identity for any integer offset, including
negative ones, whenever the diameter is positive; the row recorded for
any scored trial carries exactly the specification offset. -/
theorem offset_roundtrip :
    ∀ (cfg : Task.Config) (env : Task.Env) (st : Task.SessionState) (t : Task.TrialSpec)
      (s : String) (rtf : ℚ) (o d : Int),
      (d ≠ 0 → pyFloorDiv (o * d) d = o)
      ∧ (0 < cfg.stim_diameter → t.condition = cfg.condition →
          env.unitResult (st.current_trial + 1) = .key s rtf → (s == "quit") = false →
          ∃ st2 l row, Task.run_trial cfg env st (some t) = .ok (st2, l)
            ∧ st2.datalist = st.datalist ++ [row] ∧ row.xloc = t.x_offset)
      ∧ (0 < cfg.stim_diameter → t.condition = cfg.condition →
          env.unitResult (st.current_trial + 1) = .timeout rtf →
          ∃ st2 l row, Task.run_trial cfg env st (some t) = .ok (st2, l)
            ∧ st2.datalist = st.datalist ++ [row] ∧ row.xloc = t.x_offset) := by
  intro cfg env st t s rtf o d
  refine ⟨?_, ?_, ?_⟩
  · intro hd
    unfold pyFloorDiv
    exact Int.mul_fdiv_cancel o hd
  · intro hdia h hres hs
    have hcond : (t.condition == cfg.condition) = true := by simp [h]
    obtain ⟨row, hdl, -, hxl⟩ := Task.scoreTrial_datalist cfg env
      { st with current_trial := st.current_trial + 1 } t
      (t.x_offset * cfg.stim_diameter) (some s) (pyInt (rtf * 1000))
    refine ⟨_, _, row, Task.run_trial_key cfg env st t s rtf hcond hres hs, by simpa using hdl, ?_⟩
    rw [hxl]
    unfold pyFloorDiv
    exact Int.mul_fdiv_cancel t.x_offset (ne_of_gt hdia)
  · intro hdia h hres
    have hcond : (t.condition == cfg.condition) = true := by simp [h]
    obtain ⟨row, hdl, -, hxl⟩ := Task.scoreTrial_datalist cfg env
      { st with current_trial := st.current_trial + 1 } t
      (t.x_offset * cfg.stim_diameter) none (pyInt (rtf * 1000))
    refine ⟨_, _, row, Task.run_trial_timeout cfg env st t rtf hcond hres, by simpa using hdl, ?_⟩
    rw [hxl]
    unfold pyFloorDiv
    exact Int.mul_fdiv_cancel t.x_offset (ne_of_gt hdia)

/-- Witness for C10 at a concrete trial with negative offset -2 and
diameter 10. -/
theorem offset_roundtrip_witness :
    pyFloorDiv ((-2) * 10) 10 = -2
    ∧ ∃ st2 l row, Task.run_trial cfgW envKW (Task.initState [specW]) (some specW) = .ok (st2, l)
        ∧ st2.datalist = (Task.initState [specW]).datalist ++ [row]
        ∧ row.xloc = specW.x_offset :=
  ⟨(offset_roundtrip cfgW envKW (Task.initState [specW]) specW "u" (1/2) (-2) 10).1 (by decide),
   (offset_roundtrip cfgW envKW (Task.initState [specW]) specW "u" (1/2) (-2) 10).2.1
     (by decide) rfl rfl rfl⟩

/-- Witness for C4: a feedback-enabled block over an empty trial list
displays exactly the zero statistics. -/
theorem block_stats_empty_zero_witness :
    ∃ st2, Task.run_block cfgW envKW { Task.initState [] with trial_list := [] } =
      .ok (st2, [.stim, .feedback 0 0]) :=
  block_stats_empty_zero.2 cfgW envKW (Task.initState []) rfl rfl rfl
